import Mathlib

/-!
Verification development for the tfc-system-monitor threshold-evaluation,
violation-state and alert-dispatch core.

Shallow embedding conventions:
* Go float64 quantities (thresholds, percentages, unix-second timestamps)
  are modelled as rationals; Go int64 values as integers.
* Go maps are modelled as association lists (key-unique where the map
  invariant matters, stated as an explicit hypothesis).
* Fallible Go functions returning (T, error) are modelled as Except String T.
* time.Now() is passed explicitly as a parameter now, in unix seconds.
-/

set_option autoImplicit false

namespace TfcMonitor

/-- Nanoseconds per second: Go time.Duration values are int64 nanoseconds. -/
def nsPerSec : ℤ := 1000000000

/-- Go conversion int64(f) for a float64 f truncates toward zero. -/
def truncToInt (q : ℚ) : ℤ := if 0 ≤ q then ⌊q⌋ else ⌈q⌉

/-- ThresholdViolation from thresholds.go: a candidate violation produced by
the evaluator (metric name, severity level, message, triggering value). -/
structure ThresholdViolation where
  metric : String
  level : String
  message : String
  value : ℚ
  deriving DecidableEq, Repr

/-- ViolationState from state.go: the persisted record for one
(metric, severity) key. FirstDetectedTime and LastAlertTime are float64
unix seconds in the source; LastAlertTime is a nullable pointer. -/
structure ViolationState where
  metric : String
  level : String
  firstDetectedTime : ℚ
  lastAlertTime : Option ℚ
  hasAlerted : Bool
  deriving DecidableEq, Repr

/-- Result of applying Go time.ParseDuration to the repeat-interval string of
a throttle configuration. An empty string is never parsed by the source
(ShouldAlert tests repeatInterval against the empty string first); a
non-empty string either parses to an int64 nanosecond count (for example
the string 1m parses to 60000000000) or fails with an error. -/
inductive RepeatInterval where
  /-- The empty repeat-interval string. -/
  | empty
  /-- A non-empty string parsing to the given number of nanoseconds. -/
  | valid (ns : ℤ)
  /-- A non-empty string rejected by time.ParseDuration. -/
  | invalid (s : String)
  deriving DecidableEq, Repr

/-- True exactly on unparsable repeat-interval strings. -/
def RepeatInterval.isBad : RepeatInterval → Bool
  | .invalid _ => true
  | _ => false

/-- DurationMinutes from state.go: minutes elapsed since first detection,
computed as (now - FirstDetectedTime) / 60.0 on float64 values. -/
def durationMinutes (now : ℤ) (vs : ViolationState) : ℚ :=
  ((now : ℚ) - vs.firstDetectedTime) / 60

/-- ShouldAlert from state.go lines 138-170. Returns ok false when the
violation has not lasted minDurationMinutes yet; when it has already
alerted, suppresses unless rep (source field: repeat) is set, and when a
non-empty repeat interval parses to a positive duration and a last-alert
time is recorded, suppresses while time.Since(last alert) is below the
interval. time.Since operates on nanoseconds and the last-alert float is
first truncated to int64 seconds by time.Unix. An unparsable interval
string is returned as an error. -/
def shouldAlert (now : ℤ) (vs : ViolationState) (minDurationMinutes : ℚ)
    (rep : Bool) (repeatInterval : RepeatInterval) : Except String Bool :=
  if durationMinutes now vs < minDurationMinutes then .ok false
  else if vs.hasAlerted then
    if !rep then .ok false
    else
      match repeatInterval with
      | .empty => .ok true
      | .invalid s => .error ("failed to parse duration " ++ s)
      | .valid interval =>
        match vs.lastAlertTime with
        | none => .ok true
        | some last =>
          if interval > 0 then
            let timeSinceLastAlert : ℤ := now * nsPerSec - truncToInt last * nsPerSec
            if timeSinceLastAlert < interval then .ok false else .ok true
          else .ok true
  else .ok true

/-- MarkAlerted from state.go: records an alert sent at time now. -/
def markAlerted (now : ℤ) (vs : ViolationState) : ViolationState :=
  { vs with lastAlertTime := some (now : ℚ), hasAlerted := true }

/-- StateManager.States from state.go, a Go map from string keys to
violation states, modelled as an association list. -/
abbrev StateMap : Type := List (String × ViolationState)

/-- Key format used throughout state.go: metric, underscore, severity. -/
def stateKey (metric level : String) : String := metric ++ "_" ++ level

/-- Lookup in the state map (Go map indexing). -/
def lookupSM : StateMap → String → Option ViolationState
  | [], _ => none
  | (k, v) :: rest, key => if k = key then some v else lookupSM rest key

/-- Go delete(States, key): removes the binding for the key. -/
def eraseSM (key : String) (m : StateMap) : StateMap :=
  List.filter (fun p => decide (p.1 ≠ key)) m

/-- Replacement of the value stored under a key. In the source the map
stores a pointer and MarkAlerted mutates the pointee; on the value-level
model this is an in-place value update. -/
def updateSM (key : String) (vs : ViolationState) (m : StateMap) : StateMap :=
  List.map (fun p => if p.1 = key then (p.1, vs) else p) m

/-- Keys of the state map. -/
def keysSM (m : StateMap) : List String := List.map Prod.fst m

/-- GetOrCreate from state.go lines 49-64: returns the existing state for
the key, or creates one with FirstDetectedTime = now and HasAlerted =
false and inserts it into the map. -/
def getOrCreateSM (now : ℤ) (m : StateMap) (metric level : String) :
    ViolationState × StateMap :=
  match lookupSM m (stateKey metric level) with
  | some st => (st, m)
  | none =>
    let st : ViolationState :=
      { metric := metric, level := level, firstDetectedTime := (now : ℚ)
        lastAlertTime := none, hasAlerted := false }
    (st, m ++ [(stateKey metric level, st)])

/-- Clear from state.go lines 67-76, restricted to its effect on the map:
when the key is present it is deleted (the source then also saves the
file; persistence is modelled separately). -/
def clearSM (metric level : String) (m : StateMap) : StateMap :=
  if (lookupSM m (stateKey metric level)).isSome then
    eraseSM (stateKey metric level) m
  else m

/-- Keys of the current candidate-violation list, as built by
clearResolvedViolations (thresholds.go): metric underscore level. -/
def candidateKeys (violations : List ThresholdViolation) : List String :=
  List.map (fun v => stateKey v.metric v.level) violations

/-- Single pass of the deletion loop of clearResolvedViolations: for each
collected key, if it is still in the map, call Clear with the metric and
level fields stored in that entry. -/
def clearLoop : StateMap → List String → StateMap
  | m, [] => m
  | m, key :: rest =>
    match lookupSM m key with
    | some st => clearLoop (clearSM st.metric st.level m) rest
    | none => clearLoop m rest

/-- clearResolvedViolations from thresholds.go: collects every stored key
absent from the current candidate set, then clears each collected entry
via StateManager.Clear using the metric and level recorded in the entry.
Modelled on its effect on the state map (the current source revision also
returns a persistence error, which does not affect the map contents). -/
def clearResolvedViolations (currentViolations : List ThresholdViolation)
    (m : StateMap) : StateMap :=
  let currentKeys := candidateKeys currentViolations
  let keysToClear :=
    List.filter (fun k => !(List.contains currentKeys k)) (keysSM m)
  clearLoop m keysToClear

/-- Keys to clear for a given candidate list and map (the first phase of
clearResolvedViolations). -/
def keysToClearFor (currentViolations : List ThresholdViolation)
    (m : StateMap) : List String :=
  List.filter
    (fun k => !(List.contains (candidateKeys currentViolations) k)) (keysSM m)

/-! ## Persistence model (state.go save and load)

The persisted state file is a JSON object keyed by metric_severity. The
JSON text produced by encoding/json is modelled at the level of its
abstract syntax tree; numbers carry the rational value of the float64
(encoding/json round-trips float64 values exactly). -/

/-- Abstract JSON value. -/
inductive Json where
  | num (q : ℚ)
  | str (s : String)
  | boolean (b : Bool)
  | null
  | obj (fields : List (String × Json))
  | arr (elems : List Json)

/-- Encoding of one ViolationState as marshalled by encoding/json: struct
fields in declaration order with their json tags; the nil pointer
LastAlertTime marshals to null. -/
def encodeState (vs : ViolationState) : Json :=
  .obj
    [ ("metric", .str vs.metric)
    , ("level", .str vs.level)
    , ("first_detected_time", .num vs.firstDetectedTime)
    , ("last_alert_time", match vs.lastAlertTime with
        | none => .null
        | some t => .num t)
    , ("has_alerted", .boolean vs.hasAlerted) ]

/-- Marshalling of the whole States map (save in state.go copies the map
and marshals it as a JSON object, one member per key). -/
def encodeStates (m : StateMap) : Json :=
  .obj (List.map (fun p => (p.1, encodeState p.2)) m)

/-- First field with the given name in a JSON object body. -/
def getField : List (String × Json) → String → Option Json
  | [], _ => none
  | (k, j) :: rest, name => if k = name then some j else getField rest name

/-- Unmarshalling of one ViolationState by encoding/json: each tagged
field is read by name; an absent member or a null leaves the zero value;
a member of the wrong JSON type is an unmarshalling error (none). -/
def decodeState : Json → Option ViolationState
  | .obj fields => do
    let metric ← match getField fields "metric" with
      | none => some "" | some .null => some ""
      | some (.str s) => some s | some _ => none
    let level ← match getField fields "level" with
      | none => some "" | some .null => some ""
      | some (.str s) => some s | some _ => none
    let firstDetectedTime ← match getField fields "first_detected_time" with
      | none => some 0 | some .null => some 0
      | some (.num q) => some q | some _ => none
    let lastAlertTime ← match getField fields "last_alert_time" with
      | none => some none | some .null => some none
      | some (.num q) => some (some q) | some _ => none
    let hasAlerted ← match getField fields "has_alerted" with
      | none => some false | some .null => some false
      | some (.boolean b) => some b | some _ => none
    some { metric := metric, level := level
           firstDetectedTime := firstDetectedTime
           lastAlertTime := lastAlertTime, hasAlerted := hasAlerted }
  | _ => none

/-- Member-by-member unmarshalling of the object body of a state file. -/
def decodeStatesList : List (String × Json) → Option StateMap
  | [] => some []
  | (k, j) :: rest => do
    let st ← decodeState j
    let tail ← decodeStatesList rest
    some ((k, st) :: tail)

/-- Unmarshalling of a whole state file (load in state.go unmarshals into
a map from strings to ViolationState). -/
def decodeStates : Json → Option StateMap
  | .obj fields => decodeStatesList fields
  | _ => none

/-- Filesystem operation performed by the persistence layer. -/
inductive FsOp where
  | mkdirAll (path : String)
  | writeFile (path : String) (content : Json)
  | rename (src dst : String)

/-- True exactly on rename operations. -/
def FsOp.isRename : FsOp → Bool
  | .rename _ _ => true
  | _ => false

/-- Path written by a write operation, if any. -/
def FsOp.writeTarget : FsOp → Option String
  | .writeFile p _ => some p
  | _ => none

/-- Sequence of filesystem operations performed by save in state.go lines
84-107: MkdirAll on /tmp, then one os.WriteFile of the marshalled map
directly to the state-file path. -/
def saveOps (stateFile : String) (m : StateMap) : List FsOp :=
  [ .mkdirAll "/tmp", .writeFile stateFile (encodeStates m) ]

/-- Durable content of the state file. os.WriteFile opens the destination
with truncation and writes the bytes in place, so an interrupted write
leaves a proper prefix of the new serialization (torn, with k the number
of bytes written) instead of either complete serialization. -/
inductive FileState where
  | absent
  | whole (j : Json)
  | torn (j : Json) (k : ℕ)

/-- Effect of the single os.WriteFile call in save on the durable file:
an uninterrupted write leaves the whole new content; an interrupted one
leaves a torn prefix, regardless of what the file held before. -/
def writeFileRun (interrupted : Option ℕ) (content : Json) (_ : FileState) :
    FileState :=
  match interrupted with
  | none => .whole content
  | some k => .torn content k

/-- Durable file after running save from state.go on the given map,
possibly interrupted partway through its single write. -/
def saveRun (interrupted : Option ℕ) (m : StateMap) (fs : FileState) :
    FileState :=
  writeFileRun interrupted (encodeStates m) fs

/-- Load from state.go lines 110-129: a missing file yields the empty
state (not an error); readable content is unmarshalled, and content that
does not unmarshal (in particular a torn prefix of a JSON object) is a
returned error. -/
def loadRun : FileState → Except String StateMap
  | .absent => .ok []
  | .whole j =>
    match decodeStates j with
    | some m => .ok m
    | none => .error "failed to unmarshal state"
  | .torn _ _ => .error "failed to unmarshal state"

/-! ## Configuration model (config.go) -/

/-- ThrottleConfig from config.go; the rep field is named Repeat in the
source, and RepeatInterval is the parse status of its string value. -/
structure ThrottleConfig where
  minDurationMinutes : ℚ
  rep : Bool
  repeatInterval : RepeatInterval
  deriving DecidableEq, Repr

/-- ExcludeConfig for the disk metric (per the configuration surface
exercised by TestIsPartitionExcludedByConfig): separate glob-pattern
lists for devices, filesystem types and mountpoints. -/
structure ExcludeConfig where
  devices : List String
  filesystems : List String
  mountpoints : List String
  deriving DecidableEq, Repr

/-- MetricConfig from config.go (enabled flag, per-severity thresholds,
throttle settings, memory mode, disk exclusions). -/
structure MetricConfig where
  enabled : Bool
  thresholds : List (String × ℚ)
  throttle : ThrottleConfig
  mode : String
  exclude : ExcludeConfig
  deriving DecidableEq, Repr

/-- Config restricted to the metrics section consumed by the evaluator
and throttle engine. -/
structure Config where
  metrics : List (String × MetricConfig)
  deriving DecidableEq, Repr

/-- GetMetricConfig from config.go: map lookup with presence flag. -/
def getMetricConfig (c : Config) (name : String) : Option MetricConfig :=
  List.lookup name c.metrics

/-- GetThrottleConfig from config.go: throttle settings of the metric, or
the zero-value default (0 minutes, no repetition, empty interval string)
when the metric is absent. -/
def getThrottleConfig (c : Config) (name : String) : ThrottleConfig :=
  match getMetricConfig c name with
  | some mc => mc.throttle
  | none =>
    { minDurationMinutes := 0, rep := false, repeatInterval := .empty }

/-- Go map indexing thresholds[level]: the zero value 0 when absent, so
an absent severity threshold behaves exactly like a configured 0. -/
def thresholdOf : List (String × ℚ) → String → ℚ
  | [], _ => 0
  | (k, v) :: rest, level => if k = level then v else thresholdOf rest level

/-! ## Metrics snapshot (stats.go) -/

/-- PartitionInfo from stats.go, with the usage percentage already parsed
from its string form (the evaluator parses it with strconv.ParseFloat and
skips the partition when parsing fails). -/
structure PartitionInfo where
  device : String
  mountpoint : String
  fstype : String
  percentage : ℚ
  deriving DecidableEq, Repr

/-- SystemStats restricted to the fields the evaluator consumes. The CPU
and memory readings are strings in the source, parsed at the start of
CheckAllThresholds; none models an unparsable reading (which makes the
evaluator skip that metric). -/
structure SystemStats where
  partitions : List PartitionInfo
  cpuUsage : Option ℚ
  memUsedPercentage : Option ℚ
  deriving DecidableEq, Repr

/-! ## Glob matching and disk exclusion

The current revision of the matcher and the exclusion predicate is not in
the sources at hand (only TestMatchesPattern and
TestIsPartitionExcludedByConfig exercise them), so both are modelled from
the spec. -/

/-- Scanner for the body of a bracket character class, one character at a
time: prev is the previous literal (a candidate range start), pending is
true after a dash following a literal, found records whether c matched an
item so far. A closing bracket ends the class; an unterminated class is a
malformed pattern (none), which matches nothing. -/
def scanClassAux (c : Char) : List Char → Option Char → Bool → Bool →
    Option (Bool × List Char)
  | [], _, _, _ => none
  | ']' :: rest, _, pendingDash, found =>
    some (found || (pendingDash && (c == '-')), rest)
  | '-' :: rest, some p, false, found => scanClassAux c rest (some p) true found
  | ch :: rest, some p, true, found =>
    scanClassAux c rest none false (found || (decide (p ≤ c) && decide (c ≤ ch)))
  | ch :: rest, _, _, found => scanClassAux c rest (some ch) false (found || (ch == c))

/-- Modelled from the spec: glob matching supporting star (any character
sequence), question mark (any single character) and bracket character
classes with ranges and leading-caret negation, the semantics of the
matchesPattern helper whose current body is absent from the sources at
hand. The fuel argument bounds the recursion depth; one pattern or text
character is consumed at every step, so pattern length plus text length
plus one suffices. -/
def globMatchF : ℕ → List Char → List Char → Bool
  | 0, _, _ => false
  | _ + 1, [], text => text.isEmpty
  | fuel + 1, '*' :: ps, text =>
    globMatchF fuel ps text ||
      (match text with
       | [] => false
       | _ :: ts => globMatchF fuel ('*' :: ps) ts)
  | fuel + 1, '?' :: ps, text =>
    (match text with
     | [] => false
     | _ :: ts => globMatchF fuel ps ts)
  | fuel + 1, '[' :: ps, text =>
    (match text with
     | [] => false
     | c :: ts =>
       let negBody : Bool × List Char :=
         match ps with
         | '^' :: rest => (true, rest)
         | _ => (false, ps)
       match scanClassAux c negBody.2 none false false with
       | none => false
       | some (found, rest) => (found != negBody.1) && globMatchF fuel rest ts)
  | fuel + 1, p :: ps, text =>
    (match text with
     | [] => false
     | c :: ts => (p == c) && globMatchF fuel ps ts)

/-- Modelled from the spec: matchesPattern, glob comparison of a pattern
against a text. -/
def matchesPattern (pattern : String) (text : String) : Bool :=
  globMatchF (pattern.length + text.length + 1) pattern.toList text.toList

/-- Modelled from the spec: isPartitionExcludedByConfig, whose current
body is absent from the sources at hand. A partition is excluded when any
configured device pattern matches its device path, any filesystem pattern
matches its filesystem type, or any mountpoint pattern matches its
mountpoint; the three lists apply to their three fields independently and
any single match excludes the partition entirely. -/
def isPartitionExcludedByConfig (p : PartitionInfo) (ex : ExcludeConfig) :
    Bool :=
  List.any ex.devices (fun pat => matchesPattern pat p.device) ||
  List.any ex.filesystems (fun pat => matchesPattern pat p.fstype) ||
  List.any ex.mountpoints (fun pat => matchesPattern pat p.mountpoint)

/-! ## Threshold evaluator (thresholds.go) -/

/-- Rendering of a float64 in an alert message (the source formats with
two decimal places; the exact digits are irrelevant to every claim). -/
def fmtQ (q : ℚ) : String := toString q

/-- Modelled from the spec: the per-partition body of the current
checkDiskThresholds, whose body is absent from the sources at hand (the
old revision in the sources has no exclusion support). A partition
matching a disk exclusion yields nothing; otherwise critical is checked
before warning, both with strictly-greater-than semantics and a
positive-threshold guard, and at most one violation is produced. -/
def checkDiskPartition (warningThreshold criticalThreshold : ℚ)
    (ex : ExcludeConfig) (p : PartitionInfo) : List ThresholdViolation :=
  if isPartitionExcludedByConfig p ex then []
  else if criticalThreshold > 0 ∧ p.percentage > criticalThreshold then
    [ { metric := "disk", level := "critical"
        message := "partition " ++ p.device ++ ", mounted at " ++
          p.mountpoint ++ " is " ++ fmtQ p.percentage ++
          "% full (critical threshold: " ++ fmtQ criticalThreshold ++ "%)"
        value := p.percentage } ]
  else if warningThreshold > 0 ∧ p.percentage > warningThreshold then
    [ { metric := "disk", level := "warning"
        message := "partition " ++ p.device ++ ", mounted at " ++
          p.mountpoint ++ " is " ++ fmtQ p.percentage ++
          "% full (warning threshold: " ++ fmtQ warningThreshold ++ "%)"
        value := p.percentage } ]
  else []

/-- Modelled from the spec: checkDiskThresholds, current body absent from
the sources at hand. A disabled or unconfigured disk metric yields
nothing; otherwise every partition not excluded by the configured globs
is compared against the disk thresholds. -/
def checkDiskThresholds (config : Config) (partitions : List PartitionInfo) :
    List ThresholdViolation :=
  match getMetricConfig config "disk" with
  | none => []
  | some mc =>
    if !mc.enabled then []
    else
      let warningThreshold := thresholdOf mc.thresholds "warning"
      let criticalThreshold := thresholdOf mc.thresholds "critical"
      List.flatMap partitions
        (checkDiskPartition warningThreshold criticalThreshold mc.exclude)

/-- checkCPUThresholds from thresholds.go: single comparison of the total
utilization against the thresholds, critical first, both strict, each
guarded by a positive threshold. -/
def checkCPUThresholds (config : Config) (cpuUsage : ℚ) :
    List ThresholdViolation :=
  match getMetricConfig config "cpu" with
  | none => []
  | some mc =>
    if !mc.enabled then []
    else
      let warningThreshold := thresholdOf mc.thresholds "warning"
      let criticalThreshold := thresholdOf mc.thresholds "critical"
      if criticalThreshold > 0 ∧ cpuUsage > criticalThreshold then
        [ { metric := "cpu", level := "critical"
            message := "cpu usage: " ++ fmtQ cpuUsage ++
              "% (critical threshold: " ++ fmtQ criticalThreshold ++ "%)"
            value := cpuUsage } ]
      else if warningThreshold > 0 ∧ cpuUsage > warningThreshold then
        [ { metric := "cpu", level := "warning"
            message := "cpu usage: " ++ fmtQ cpuUsage ++
              "% (warning threshold: " ++ fmtQ warningThreshold ++ "%)"
            value := cpuUsage } ]
      else []

/-- checkMemoryThresholds from thresholds.go: an empty mode defaults to
min_free; min_free compares the free percentage with strictly-less-than
(critical first), any other mode compares the used percentage with
strictly-greater-than; both severities are guarded by a positive
threshold and at most one violation is produced. -/
def checkMemoryThresholds (config : Config) (memUsed memFree : ℚ) :
    List ThresholdViolation :=
  match getMetricConfig config "memory" with
  | none => []
  | some mc =>
    if !mc.enabled then []
    else
      let mode := if mc.mode = "" then "min_free" else mc.mode
      let warningThreshold := thresholdOf mc.thresholds "warning"
      let criticalThreshold := thresholdOf mc.thresholds "critical"
      if mode = "min_free" then
        if criticalThreshold > 0 ∧ memFree < criticalThreshold then
          [ { metric := "memory", level := "critical"
              message := "free memory: " ++ fmtQ memFree ++
                "% (critical threshold: below " ++ fmtQ criticalThreshold ++ "%)"
              value := memFree } ]
        else if warningThreshold > 0 ∧ memFree < warningThreshold then
          [ { metric := "memory", level := "warning"
              message := "free memory: " ++ fmtQ memFree ++
                "% (warning threshold: below " ++ fmtQ warningThreshold ++ "%)"
              value := memFree } ]
        else []
      else
        if criticalThreshold > 0 ∧ memUsed > criticalThreshold then
          [ { metric := "memory", level := "critical"
              message := "memory used: " ++ fmtQ memUsed ++
                "% (critical threshold: " ++ fmtQ criticalThreshold ++ "%)"
              value := memUsed } ]
        else if warningThreshold > 0 ∧ memUsed > warningThreshold then
          [ { metric := "memory", level := "warning"
              message := "memory used: " ++ fmtQ memUsed ++
                "% (warning threshold: " ++ fmtQ warningThreshold ++ "%)"
              value := memUsed } ]
        else []

/-! ## Throttle decision engine -/

/-- Modelled from the spec: applyThrottling, whose current body is absent
from the sources at hand (the caller-facing shape, a throttled list and
an error, is fixed by TestApplyThrottling). For each candidate the state
for its key is fetched or created, ShouldAlert is consulted with the
metric throttle settings, an unparsable repeat interval is surfaced as
the error, an accepted violation is kept and its state marked alerted,
and a suppressed one leaves its state untouched. -/
def applyThrottling (now : ℤ) (config : Config) :
    List ThresholdViolation → StateMap →
    Except String (List ThresholdViolation × StateMap)
  | [], m => .ok ([], m)
  | v :: rest, m =>
    let tc := getThrottleConfig config v.metric
    let fetched := getOrCreateSM now m v.metric v.level
    match shouldAlert now fetched.1 tc.minDurationMinutes tc.rep
        tc.repeatInterval with
    | .error e => .error e
    | .ok true =>
      let m2 := updateSM (stateKey v.metric v.level)
        (markAlerted now fetched.1) fetched.2
      (applyThrottling now config rest m2).map (fun r => (v :: r.1, r.2))
    | .ok false => applyThrottling now config rest fetched.2

/-- Modelled from the spec: CheckAllThresholds, whose current body is
absent from the sources at hand (its caller-facing shape, two violation
lists and an error, is fixed by checkSystemStatus in main.go and by
TestCheckAllThresholds). Candidates are evaluated per metric with
unparsable CPU or memory readings skipping their metric, throttled
against the state map, resolved violations are cleared, the mutated
state map is persisted, and only then are the accepted violations
returned split by level; a throttling error or a failed persistence
write is returned to the caller instead. writeOk models whether the
write of the state file succeeds, and the returned Json is the durable
state-file content after the cycle. -/
def gatherViolations (config : Config) (stats : SystemStats) :
    List ThresholdViolation :=
  let diskViolations := checkDiskThresholds config stats.partitions
  let cpuViolations :=
    match stats.cpuUsage with
    | some u => checkCPUThresholds config u
    | none => []
  let memViolations :=
    match stats.memUsedPercentage with
    | some used => checkMemoryThresholds config used (100 - used)
    | none => []
  diskViolations ++ cpuViolations ++ memViolations

def checkAllThresholds (now : ℤ) (writeOk : Bool) (config : Config)
    (stats : SystemStats) (m : StateMap) :
    Except String
      (List ThresholdViolation × List ThresholdViolation × StateMap × Json) :=
  let allViolations := gatherViolations config stats
  match applyThrottling now config allViolations m with
  | .error e => .error e
  | .ok (throttled, m1) =>
    let m2 := clearResolvedViolations allViolations m1
    if writeOk then
      .ok (List.filter (fun v => v.level == "warning") throttled,
           List.filter (fun v => v.level == "critical") throttled,
           m2, encodeStates m2)
    else .error "failed to write state file"

/-! ## Alert dispatcher (alerts.go)

The current revision of ProcessViolations returns an error (fixed by its
caller in main.go and by the alerts tests); its body is absent from the
sources at hand and is modelled from the spec. An action configuration is
modelled by its construction outcome: either CreateAction rejects it with
a validation error, or it yields an executable whose per-violation
outcome (none for success, some error message otherwise) abstracts the
delivery result of the logger, syslog, webhook, script or stdout
implementation. -/

/-- Construction outcome of one configured alert action. -/
inductive ActionSpec where
  /-- CreateAction fails with a validation error (unknown type, missing
  url or path, invalid syslog facility or priority). -/
  | invalid (e : String)
  /-- CreateAction succeeds; exec gives the per-violation delivery
  outcome. -/
  | valid (exec : ThresholdViolation → Option String)

/-- Attempted executions of one action chain, as (action index,
violation) pairs: every successfully constructed action is attempted on
every violation of the severity, in order. -/
def chainAttempts : List ActionSpec → List ThresholdViolation → ℕ →
    List (ℕ × ThresholdViolation)
  | [], _, _ => []
  | .invalid _ :: rest, vs, i => chainAttempts rest vs (i + 1)
  | .valid _ :: rest, vs, i =>
    List.map (fun v => (i, v)) vs ++ chainAttempts rest vs (i + 1)

/-- Errors of one action chain in encounter order: a construction error
contributes itself, a constructed action contributes its per-violation
delivery failures. -/
def chainErrors : List ActionSpec → List ThresholdViolation → List String
  | [], _ => []
  | .invalid e :: rest, vs => e :: chainErrors rest vs
  | .valid exec :: rest, vs => List.filterMap exec vs ++ chainErrors rest vs

/-- Inner loop of the modelled dispatcher: one constructed action is
executed on every violation, keeping the first error seen so far and
recording every attempt. -/
def execLoop (i : ℕ) (exec : ThresholdViolation → Option String) :
    List ThresholdViolation → Option String → List (ℕ × ThresholdViolation) →
    Option String × List (ℕ × ThresholdViolation)
  | [], firstErr, attempts => (firstErr, attempts)
  | v :: rest, firstErr, attempts =>
    let firstErr2 :=
      match firstErr with
      | some e => some e
      | none => exec v
    execLoop i exec rest firstErr2 (attempts ++ [(i, v)])

/-- Modelled from the spec: the per-severity dispatch loop of the current
ProcessViolations, whose body is absent from the sources at hand. Each
configured action is constructed; a construction failure records the
error and skips only that action; a constructed action is executed once
per violation with delivery failures recorded; the chain always runs to
the end and the first error seen is kept. -/
def dispatchChain : List ActionSpec → List ThresholdViolation → ℕ →
    Option String → List (ℕ × ThresholdViolation) →
    Option String × List (ℕ × ThresholdViolation)
  | [], _, _, firstErr, attempts => (firstErr, attempts)
  | .invalid e :: rest, vs, i, firstErr, attempts =>
    let firstErr2 :=
      match firstErr with
      | some e0 => some e0
      | none => some e
    dispatchChain rest vs (i + 1) firstErr2 attempts
  | .valid exec :: rest, vs, i, firstErr, attempts =>
    let stepped := execLoop i exec vs firstErr attempts
    dispatchChain rest vs (i + 1) stepped.1 stepped.2

/-- Modelled from the spec: ProcessViolations, current body absent from
the sources at hand. Criticals are processed before warnings, each
severity only when it has at least one accepted violation, and the first
error encountered across the whole dispatch is returned to the caller
together with the full attempt trace. -/
def processViolations (warningActions criticalActions : List ActionSpec)
    (warningViolations criticalViolations : List ThresholdViolation) :
    Option String × List (ℕ × ThresholdViolation) :=
  let afterCrit :=
    if criticalViolations.isEmpty then (none, [])
    else dispatchChain criticalActions criticalViolations 0 none []
  if warningViolations.isEmpty then afterCrit
  else dispatchChain warningActions warningViolations 0 afterCrit.1
    afterCrit.2

/-! ## Helper lemmas on the state map -/

@[simp] theorem keysSM_nil : keysSM [] = [] := rfl

@[simp] theorem keysSM_cons (a : String) (b : ViolationState)
    (rest : StateMap) : keysSM ((a, b) :: rest) = a :: keysSM rest := rfl

theorem lookupSM_append_self (m : StateMap) (k : String)
    (st : ViolationState) (h : lookupSM m k = none) :
    lookupSM (m ++ [(k, st)]) k = some st := by
  induction m with
  | nil => simp [lookupSM]
  | cons p rest ih =>
    obtain ⟨a, b⟩ := p
    by_cases hk : a = k
    · simp [lookupSM, hk] at h
    · simp only [List.cons_append, lookupSM, if_neg hk] at h ⊢
      exact ih h

theorem mem_of_lookupSM {m : StateMap} {k : String} {st : ViolationState}
    (h : lookupSM m k = some st) : (k, st) ∈ m := by
  induction m with
  | nil => simp [lookupSM] at h
  | cons p rest ih =>
    obtain ⟨a, b⟩ := p
    by_cases hk : a = k
    · simp only [lookupSM, if_pos hk] at h
      obtain rfl := Option.some.inj h
      subst hk
      exact List.mem_cons_self _ _
    · simp only [lookupSM, if_neg hk] at h
      exact List.mem_cons_of_mem _ (ih h)

theorem lookupSM_eq_none_iff {m : StateMap} {k : String} :
    lookupSM m k = none ↔ k ∉ keysSM m := by
  induction m with
  | nil => simp [lookupSM]
  | cons p rest ih =>
    obtain ⟨a, b⟩ := p
    by_cases hk : a = k
    · simp [lookupSM, hk]
    · have hk2 : ¬(k = a) := fun h => hk h.symm
      simp [lookupSM, hk, ih, hk2]

theorem lookupSM_of_mem_nodup {m : StateMap} {k : String}
    {st : ViolationState} (hmem : (k, st) ∈ m)
    (hnd : (keysSM m).Nodup) : lookupSM m k = some st := by
  induction m with
  | nil => simp at hmem
  | cons p rest ih =>
    obtain ⟨a, b⟩ := p
    have hnd2 := (List.nodup_cons.mp (by simpa using hnd))
    rcases List.mem_cons.mp hmem with hp | hr
    · cases hp
      simp [lookupSM]
    · have hka : a ≠ k := by
        rintro rfl
        exact hnd2.1 (List.mem_map_of_mem Prod.fst hr)
      simp only [lookupSM, if_neg hka]
      exact ih hr hnd2.2

/-! ## Claim C10: ShouldAlert with a recorded alert but no last-alert
timestamp -/

/-- C10 counterexample: the claim asserts that for every ViolationState
with has_alerted true and last_alert_time nil, ShouldAlert with repeat
true and a non-empty parsable repeat interval returns true; but a state
first detected at the current instant with min_duration_minutes 5 is
suppressed by the duration gate (the interval string 1h parses to
3600000000000 nanoseconds), so ShouldAlert returns false. -/
theorem c10_counterexample :
    shouldAlert 1000
      { metric := "cpu", level := "warning", firstDetectedTime := 1000
        lastAlertTime := none, hasAlerted := true }
      5 true (.valid 3600000000000) = .ok false := by
  simp [shouldAlert, durationMinutes]

/-- C10 (amended): for every ViolationState with has_alerted true but
last_alert_time nil, and whose elapsed duration since first detection is
at least min_duration_minutes, ShouldAlert with repeat true and a
non-empty parsable repeat interval returns true: the repeat-interval
suppression check is skipped entirely when no last-alert timestamp is
recorded. -/
theorem c10_nil_last_alert_skips_interval (now : ℤ) (vs : ViolationState)
    (minDur : ℚ) (n : ℤ)
    (hAlerted : vs.hasAlerted = true) (hNil : vs.lastAlertTime = none)
    (hDur : minDur ≤ durationMinutes now vs) :
    shouldAlert now vs minDur true (.valid n) = .ok true := by
  simp [shouldAlert, hAlerted, hNil, not_lt.mpr hDur]

/-- C10 witness: the amended theorem applied at a concrete state first
detected 600 seconds before now with a 10-minute minimum duration. -/
theorem c10_witness :
    ViolationState.hasAlerted
        { metric := "cpu", level := "warning", firstDetectedTime := 400
          lastAlertTime := none, hasAlerted := true } = true ∧
    ViolationState.lastAlertTime
        { metric := "cpu", level := "warning", firstDetectedTime := 400
          lastAlertTime := none, hasAlerted := true } = none ∧
    (10 : ℚ) ≤ durationMinutes 1000
        { metric := "cpu", level := "warning", firstDetectedTime := 400
          lastAlertTime := none, hasAlerted := true } ∧
    shouldAlert 1000
        { metric := "cpu", level := "warning", firstDetectedTime := 400
          lastAlertTime := none, hasAlerted := true }
      10 true (.valid 60000000000) = .ok true :=
  ⟨rfl, rfl, by norm_num [durationMinutes],
    c10_nil_last_alert_skips_interval 1000 _ 10 60000000000 rfl rfl
      (by norm_num [durationMinutes])⟩

/-! ## Claim C1: ShouldAlert characterization and duration suppression -/

/-- Alert condition asserted by the spec sentence behind claim C1: the
elapsed duration reaches min_duration_minutes, and either has_alerted is
false, or repeat is true and the repeat interval is empty or now minus
the last alert time is at least the interval (read as vacuous when no
last-alert time is recorded, the case claim C10 makes explicit; an
unparsable interval is outside the claim and mapped to false). -/
def c1SpecCond (now : ℤ) (vs : ViolationState) (minDur : ℚ) (rep : Bool)
    (ri : RepeatInterval) : Prop :=
  minDur ≤ durationMinutes now vs ∧
    (vs.hasAlerted = false ∨
      (rep = true ∧
        (ri = .empty ∨
          ∃ n, ri = .valid n ∧
            ∀ t, vs.lastAlertTime = some t →
              n ≤ (now - truncToInt t) * nsPerSec)))

/-- C1 counterexample: with an interval string parsing to a non-positive
duration (the parsable string 0s parses to 0 nanoseconds) and a last
alert recorded 100 seconds after now, the source skips the interval
comparison (the guard requires interval greater than 0) and returns
true, while the claimed condition, now minus last alert at least the
interval, is false. -/
theorem c1_counterexample :
    shouldAlert 1000
      { metric := "cpu", level := "warning", firstDetectedTime := 1000
        lastAlertTime := some 1100, hasAlerted := true }
      0 true (.valid 0) = .ok true ∧
    ¬ c1SpecCond 1000
      { metric := "cpu", level := "warning", firstDetectedTime := 1000
        lastAlertTime := some 1100, hasAlerted := true }
      0 true (.valid 0) := by
  have hd : ¬ (durationMinutes 1000
      { metric := "cpu", level := "warning", firstDetectedTime := 1000
        lastAlertTime := some 1100, hasAlerted := true } < (0 : ℚ)) := by
    norm_num [durationMinutes]
  have ha : ¬ ((0 : ℤ) ≤ (1000 - truncToInt 1100) * nsPerSec) := by
    norm_num [truncToInt, nsPerSec]
  constructor
  · simp only [shouldAlert]
    rw [if_neg hd]
    simp
  · rintro ⟨-, hc | ⟨-, hc | ⟨n, hn, hall⟩⟩⟩
    · simp at hc
    · exact RepeatInterval.noConfusion hc
    · have hn0 : (0 : ℤ) = n := RepeatInterval.valid.inj hn
      have hle := hall 1100 rfl
      rw [← hn0] at hle
      exact ha hle

/-- Suppression by the duration gate returns ok false. -/
theorem shouldAlert_of_short_duration (now : ℤ) (vs : ViolationState)
    {minDur : ℚ} (rep : Bool) (ri : RepeatInterval)
    (h : durationMinutes now vs < minDur) :
    shouldAlert now vs minDur rep ri = .ok false := by
  simp [shouldAlert, h]

/-- C1 (amended): for every ViolationState and throttle policy whose
repeat interval is empty or parsable, ShouldAlert returns ok true if and
only if the elapsed duration since first detection is at least
min_duration_minutes and either has_alerted is false, or repeat is true
and the interval is empty, parses to a non-positive duration, no
last-alert time is recorded, or now minus the last alert time is at
least the interval; and a candidate suppressed by the duration gate
leaves its fetched-or-created state stored unmarked. -/
theorem c1_shouldAlert_amended :
    (∀ (now : ℤ) (vs : ViolationState) (minDur : ℚ) (rep : Bool)
        (ri : RepeatInterval), ri.isBad = false →
      (shouldAlert now vs minDur rep ri = .ok true ↔
        (minDur ≤ durationMinutes now vs ∧
          (vs.hasAlerted = false ∨
            (rep = true ∧
              (ri = .empty ∨
                ∃ n, ri = .valid n ∧
                  (n ≤ 0 ∨ vs.lastAlertTime = none ∨
                    ∃ t, vs.lastAlertTime = some t ∧
                      n ≤ (now - truncToInt t) * nsPerSec))))))) ∧
    (∀ (now : ℤ) (config : Config) (v : ThresholdViolation) (m : StateMap),
      durationMinutes now (getOrCreateSM now m v.metric v.level).1 <
          (getThrottleConfig config v.metric).minDurationMinutes →
      applyThrottling now config [v] m =
          .ok ([], (getOrCreateSM now m v.metric v.level).2) ∧
        lookupSM (getOrCreateSM now m v.metric v.level).2
            (stateKey v.metric v.level) =
          some (getOrCreateSM now m v.metric v.level).1 ∧
        (getOrCreateSM now m v.metric v.level).1.hasAlerted =
          (match lookupSM m (stateKey v.metric v.level) with
           | some st => st.hasAlerted
           | none => false)) := by
  constructor
  · intro now vs minDur rep ri hbad
    by_cases h1 : durationMinutes now vs < minDur
    · rw [shouldAlert_of_short_duration now vs rep ri h1]
      simp [not_le.mpr h1]
    · have h1le := not_lt.mp h1
      cases h2 : vs.hasAlerted with
      | false =>
        have hLHS : shouldAlert now vs minDur rep ri = .ok true := by
          simp [shouldAlert, h1, h2]
        rw [hLHS]
        simp [h2, h1le]
      | true =>
        cases rep with
        | false =>
          have hLHS : shouldAlert now vs minDur false ri = .ok false := by
            simp [shouldAlert, h1, h2]
          rw [hLHS]
          simp [h2]
        | true =>
          cases ri with
          | empty =>
            have hLHS :
                shouldAlert now vs minDur true .empty = .ok true := by
              simp [shouldAlert, h1, h2]
            rw [hLHS]
            simp [h2, h1le]
          | invalid s => simp [RepeatInterval.isBad] at hbad
          | valid n =>
            have harith : ∀ q : ℚ, (now - truncToInt q) * nsPerSec =
                now * nsPerSec - truncToInt q * nsPerSec := by
              intro q
              ring
            cases hlast : vs.lastAlertTime with
            | none =>
              have hLHS : shouldAlert now vs minDur true (.valid n) =
                  .ok true := by
                simp [shouldAlert, h1, h2, hlast]
              rw [hLHS]
              simp [h2, h1le, hlast]
            | some t =>
              by_cases h3 : (0 : ℤ) < n
              · by_cases h4 : now * nsPerSec - truncToInt t * nsPerSec < n
                · have hLHS : shouldAlert now vs minDur true (.valid n) =
                      .ok false := by
                    simp [shouldAlert, h1, h2, hlast, h3, h4]
                  rw [hLHS]
                  constructor
                  · intro h
                    exact absurd h (by simp)
                  · rintro ⟨-, hc | ⟨-, hc | ⟨n2, hn2, hc⟩⟩⟩
                    · exact Bool.noConfusion hc
                    · exact RepeatInterval.noConfusion hc
                    · obtain rfl := RepeatInterval.valid.inj hn2
                      rcases hc with hc | hc | ⟨t2, ht2, hc⟩
                      · exact absurd hc (by omega)
                      · exact Option.noConfusion hc
                      · obtain rfl := Option.some.inj ht2
                        rw [harith t] at hc
                        exact absurd hc (not_le.mpr h4)
                · have hLHS : shouldAlert now vs minDur true (.valid n) =
                      .ok true := by
                    simp [shouldAlert, h1, h2, hlast, h3, h4]
                  rw [hLHS]
                  constructor
                  · intro _
                    refine ⟨h1le, Or.inr ⟨rfl, Or.inr ⟨n, rfl,
                      Or.inr (Or.inr ⟨t, rfl, ?_⟩)⟩⟩⟩
                    rw [harith t]
                    omega
                  · intro _
                    rfl
              · have hLHS : shouldAlert now vs minDur true (.valid n) =
                    .ok true := by
                  simp [shouldAlert, h1, h2, hlast, h3]
                rw [hLHS]
                constructor
                · intro _
                  exact ⟨h1le, Or.inr ⟨rfl, Or.inr ⟨n, rfl,
                    Or.inl (by omega)⟩⟩⟩
                · intro _
                  rfl
  · intro now config v m hdur
    have hsa := shouldAlert_of_short_duration now
      (getOrCreateSM now m v.metric v.level).1
      (getThrottleConfig config v.metric).rep
      (getThrottleConfig config v.metric).repeatInterval hdur
    refine ⟨?_, ?_, ?_⟩
    · simp [applyThrottling, hsa]
    · cases hl : lookupSM m (stateKey v.metric v.level) with
      | some st => simp [getOrCreateSM, hl]
      | none =>
        simp only [getOrCreateSM, hl]
        exact lookupSM_append_self m _ _ hl
    · cases hl : lookupSM m (stateKey v.metric v.level) with
      | some st => simp [getOrCreateSM, hl]
      | none => simp [getOrCreateSM, hl]

/-- Concrete configuration for the C1 witness: a cpu metric with a
five-minute minimum violation duration. -/
def c1Config : Config :=
  { metrics :=
      [ ("cpu",
         { enabled := true, thresholds := [("warning", 70)]
           throttle :=
             { minDurationMinutes := 5, rep := false
               repeatInterval := .empty }
           mode := "", exclude := { devices := [], filesystems := []
                                    mountpoints := [] } }) ] }

/-- Concrete candidate violation for the C1 witness. -/
def c1Violation : ThresholdViolation :=
  { metric := "cpu", level := "warning", message := "cpu usage high"
    value := 95 }

/-- C1 witness: both parts of the amended theorem applied at concrete
inputs; a repeating one-minute interval with the last alert 100 seconds
ago alerts again, and a candidate 0 seconds into a 5-minute minimum
duration is suppressed with its freshly created state left unmarked. -/
theorem c1_witness :
    RepeatInterval.isBad (.valid 60000000000) = false ∧
    shouldAlert 1200
      { metric := "disk", level := "warning", firstDetectedTime := 600
        lastAlertTime := some 1100, hasAlerted := true }
      10 true (.valid 60000000000) = .ok true ∧
    durationMinutes 1000
        (getOrCreateSM 1000 [] c1Violation.metric c1Violation.level).1 <
      (getThrottleConfig c1Config c1Violation.metric).minDurationMinutes ∧
    applyThrottling 1000 c1Config [c1Violation] [] =
      .ok ([], (getOrCreateSM 1000 [] c1Violation.metric
        c1Violation.level).2) :=
  ⟨rfl,
   (c1_shouldAlert_amended.1 1200 _ 10 true (.valid 60000000000) rfl).mpr
     ⟨by norm_num [durationMinutes],
      Or.inr ⟨rfl, Or.inr ⟨60000000000, rfl, Or.inr (Or.inr
        ⟨1100, rfl, by norm_num [truncToInt, nsPerSec]⟩)⟩⟩⟩,
   by norm_num [durationMinutes, getOrCreateSM, lookupSM, c1Violation,
     getThrottleConfig, getMetricConfig, c1Config],
   (c1_shouldAlert_amended.2 1000 c1Config c1Violation []
     (by norm_num [durationMinutes, getOrCreateSM, lookupSM, c1Violation,
       getThrottleConfig, getMetricConfig, c1Config])).1⟩

/-! ## Claim C8: strictly-greater-than semantics of the CPU evaluator -/

/-- Concrete cpu configuration with warning 70 and critical 90. -/
def c8Config : Config :=
  { metrics :=
      [ ("cpu",
         { enabled := true
           thresholds := [("warning", 70), ("critical", 90)]
           throttle :=
             { minDurationMinutes := 0, rep := false
               repeatInterval := .empty }
           mode := "", exclude := { devices := [], filesystems := []
                                    mountpoints := [] } }) ] }

/-- C8 counterexample: the claim asserts that a CPU value exactly equal
to the warning or critical threshold yields no violation; but at a value
of 90, equal to the critical threshold, the critical comparison fails
strictly while the warning comparison (90 greater than 70) succeeds, so
the evaluator emits one warning violation. -/
theorem c8_counterexample :
    List.map (fun v : ThresholdViolation => (v.metric, v.level, v.value))
      (checkCPUThresholds c8Config 90) = [("cpu", "warning", (90 : ℚ))] := by
  simp [checkCPUThresholds, c8Config, getMetricConfig, List.lookup,
    thresholdOf]
  norm_num

/-- C8 (amended): the CPU evaluator emits a violation only when the value
is strictly greater than the threshold of the emitted severity; a value
exactly equal to a severity threshold yields no violation at that
severity (it can still yield the other severity when it strictly exceeds
that threshold). -/
theorem c8_strict_amended :
    ∀ (cfg : Config) (u : ℚ),
      (∀ v ∈ checkCPUThresholds cfg u,
        ∃ mc, getMetricConfig cfg "cpu" = some mc ∧
          ((v.level = "critical" ∧ thresholdOf mc.thresholds "critical" < u) ∨
           (v.level = "warning" ∧ thresholdOf mc.thresholds "warning" < u))) ∧
      (∀ mc, getMetricConfig cfg "cpu" = some mc →
        (u = thresholdOf mc.thresholds "warning" →
          ∀ v ∈ checkCPUThresholds cfg u, v.level ≠ "warning") ∧
        (u = thresholdOf mc.thresholds "critical" →
          ∀ v ∈ checkCPUThresholds cfg u, v.level ≠ "critical")) := by
  intro cfg u
  cases hmc : getMetricConfig cfg "cpu" with
  | none =>
    constructor
    · intro v hv
      simp [checkCPUThresholds, hmc] at hv
    · intro mc hmc2
      exact Option.noConfusion hmc2
  | some mc =>
    have hout : ∀ v ∈ checkCPUThresholds cfg u,
        (v.level = "critical" ∧ thresholdOf mc.thresholds "critical" < u) ∨
        (v.level = "warning" ∧ thresholdOf mc.thresholds "warning" < u) := by
      intro v hv
      simp only [checkCPUThresholds, hmc] at hv
      by_cases he : mc.enabled
      · simp only [he, Bool.not_true, Bool.false_eq_true, if_false] at hv
        by_cases hcrit : thresholdOf mc.thresholds "critical" > 0 ∧
            u > thresholdOf mc.thresholds "critical"
        · rw [if_pos hcrit] at hv
          obtain rfl := List.mem_singleton.mp hv
          exact Or.inl ⟨rfl, hcrit.2⟩
        · rw [if_neg hcrit] at hv
          by_cases hwarn : thresholdOf mc.thresholds "warning" > 0 ∧
              u > thresholdOf mc.thresholds "warning"
          · rw [if_pos hwarn] at hv
            obtain rfl := List.mem_singleton.mp hv
            exact Or.inr ⟨rfl, hwarn.2⟩
          · rw [if_neg hwarn] at hv
            simp at hv
      · simp [he] at hv
    constructor
    · intro v hv
      exact ⟨mc, rfl, hout v hv⟩
    · intro mc2 hmc2
      obtain rfl := Option.some.inj hmc2
      constructor
      · intro hu v hv hlev
        rcases hout v hv with ⟨hl, hlt⟩ | ⟨hl, hlt⟩
        · rw [hlev] at hl
          simp at hl
        · rw [hu] at hlt
          exact lt_irrefl _ hlt
      · intro hu v hv hlev
        rcases hout v hv with ⟨hl, hlt⟩ | ⟨hl, hlt⟩
        · rw [hu] at hlt
          exact lt_irrefl _ hlt
        · rw [hlev] at hl
          simp at hl

/-- Concrete violation emitted at a CPU usage of 95 under c8Config. -/
def c8Violation : ThresholdViolation :=
  { metric := "cpu", level := "critical"
    message := "cpu usage: " ++ fmtQ 95 ++ "% (critical threshold: " ++
      fmtQ 90 ++ "%)"
    value := 95 }

/-- C8 witness: the amended theorem applied to the critical violation
emitted at a usage of 95 (strictly above the critical threshold 90). -/
theorem c8_witness :
    c8Violation ∈ checkCPUThresholds c8Config 95 ∧
    (∃ mc, getMetricConfig c8Config "cpu" = some mc ∧
      ((c8Violation.level = "critical" ∧
          thresholdOf mc.thresholds "critical" < 95) ∨
       (c8Violation.level = "warning" ∧
          thresholdOf mc.thresholds "warning" < 95))) :=
  ⟨by
    simp [checkCPUThresholds, c8Config, c8Violation, getMetricConfig,
      List.lookup, thresholdOf]
    norm_num,
   (c8_strict_amended c8Config 95).1 c8Violation
     (by
       simp [checkCPUThresholds, c8Config, c8Violation,
         getMetricConfig, List.lookup, thresholdOf]
       norm_num)⟩

/-! ## Membership characterizations of the evaluators (shared helpers) -/

theorem checkCPU_mem {cfg : Config} {u : ℚ} {v : ThresholdViolation}
    (hv : v ∈ checkCPUThresholds cfg u) :
    ∃ mc, getMetricConfig cfg "cpu" = some mc ∧
      ((v.level = "critical" ∧ 0 < thresholdOf mc.thresholds "critical" ∧
          thresholdOf mc.thresholds "critical" < u) ∨
       (v.level = "warning" ∧ 0 < thresholdOf mc.thresholds "warning" ∧
          thresholdOf mc.thresholds "warning" < u)) := by
  cases hmc : getMetricConfig cfg "cpu" with
  | none => simp [checkCPUThresholds, hmc] at hv
  | some mc =>
    refine ⟨mc, rfl, ?_⟩
    simp only [checkCPUThresholds, hmc] at hv
    by_cases he : mc.enabled
    · simp only [he, Bool.not_true, Bool.false_eq_true, if_false] at hv
      by_cases hcrit : thresholdOf mc.thresholds "critical" > 0 ∧
          u > thresholdOf mc.thresholds "critical"
      · rw [if_pos hcrit] at hv
        obtain rfl := List.mem_singleton.mp hv
        exact Or.inl ⟨rfl, hcrit.1, hcrit.2⟩
      · rw [if_neg hcrit] at hv
        by_cases hwarn : thresholdOf mc.thresholds "warning" > 0 ∧
            u > thresholdOf mc.thresholds "warning"
        · rw [if_pos hwarn] at hv
          obtain rfl := List.mem_singleton.mp hv
          exact Or.inr ⟨rfl, hwarn.1, hwarn.2⟩
        · rw [if_neg hwarn] at hv
          simp at hv
    · simp [he] at hv

theorem checkMemory_mem {cfg : Config} {used free : ℚ}
    {v : ThresholdViolation}
    (hv : v ∈ checkMemoryThresholds cfg used free) :
    ∃ mc, getMetricConfig cfg "memory" = some mc ∧
      ((v.level = "critical" ∧ 0 < thresholdOf mc.thresholds "critical") ∨
       (v.level = "warning" ∧ 0 < thresholdOf mc.thresholds "warning")) := by
  cases hmc : getMetricConfig cfg "memory" with
  | none => simp [checkMemoryThresholds, hmc] at hv
  | some mc =>
    refine ⟨mc, rfl, ?_⟩
    simp only [checkMemoryThresholds, hmc] at hv
    by_cases he : mc.enabled
    · simp only [he, Bool.not_true, Bool.false_eq_true, if_false] at hv
      by_cases hmode : (if mc.mode = "" then "min_free" else mc.mode) =
          "min_free"
      · rw [if_pos hmode] at hv
        by_cases hcrit : thresholdOf mc.thresholds "critical" > 0 ∧
            free < thresholdOf mc.thresholds "critical"
        · rw [if_pos hcrit] at hv
          obtain rfl := List.mem_singleton.mp hv
          exact Or.inl ⟨rfl, hcrit.1⟩
        · rw [if_neg hcrit] at hv
          by_cases hwarn : thresholdOf mc.thresholds "warning" > 0 ∧
              free < thresholdOf mc.thresholds "warning"
          · rw [if_pos hwarn] at hv
            obtain rfl := List.mem_singleton.mp hv
            exact Or.inr ⟨rfl, hwarn.1⟩
          · rw [if_neg hwarn] at hv
            simp at hv
      · rw [if_neg hmode] at hv
        by_cases hcrit : thresholdOf mc.thresholds "critical" > 0 ∧
            used > thresholdOf mc.thresholds "critical"
        · rw [if_pos hcrit] at hv
          obtain rfl := List.mem_singleton.mp hv
          exact Or.inl ⟨rfl, hcrit.1⟩
        · rw [if_neg hcrit] at hv
          by_cases hwarn : thresholdOf mc.thresholds "warning" > 0 ∧
              used > thresholdOf mc.thresholds "warning"
          · rw [if_pos hwarn] at hv
            obtain rfl := List.mem_singleton.mp hv
            exact Or.inr ⟨rfl, hwarn.1⟩
          · rw [if_neg hwarn] at hv
            simp at hv
    · simp [he] at hv

theorem checkDiskPartition_mem {wt ct : ℚ} {ex : ExcludeConfig}
    {p : PartitionInfo} {v : ThresholdViolation}
    (hv : v ∈ checkDiskPartition wt ct ex p) :
    isPartitionExcludedByConfig p ex = false ∧
      ((v.level = "critical" ∧ 0 < ct ∧ ct < p.percentage) ∨
       (v.level = "warning" ∧ 0 < wt ∧ wt < p.percentage)) := by
  by_cases hex : isPartitionExcludedByConfig p ex
  · simp [checkDiskPartition, hex] at hv
  · refine ⟨by simpa using hex, ?_⟩
    simp only [checkDiskPartition, hex, Bool.false_eq_true, if_false] at hv
    by_cases hcrit : ct > 0 ∧ p.percentage > ct
    · rw [if_pos hcrit] at hv
      obtain rfl := List.mem_singleton.mp hv
      exact Or.inl ⟨rfl, hcrit.1, hcrit.2⟩
    · rw [if_neg hcrit] at hv
      by_cases hwarn : wt > 0 ∧ p.percentage > wt
      · rw [if_pos hwarn] at hv
        obtain rfl := List.mem_singleton.mp hv
        exact Or.inr ⟨rfl, hwarn.1, hwarn.2⟩
      · rw [if_neg hwarn] at hv
        simp at hv

theorem checkDisk_mem {cfg : Config} {parts : List PartitionInfo}
    {v : ThresholdViolation} (hv : v ∈ checkDiskThresholds cfg parts) :
    ∃ mc, getMetricConfig cfg "disk" = some mc ∧
      ∃ p ∈ parts, isPartitionExcludedByConfig p mc.exclude = false ∧
        ((v.level = "critical" ∧
            0 < thresholdOf mc.thresholds "critical" ∧
            thresholdOf mc.thresholds "critical" < p.percentage) ∨
         (v.level = "warning" ∧
            0 < thresholdOf mc.thresholds "warning" ∧
            thresholdOf mc.thresholds "warning" < p.percentage)) := by
  cases hmc : getMetricConfig cfg "disk" with
  | none => simp [checkDiskThresholds, hmc] at hv
  | some mc =>
    refine ⟨mc, rfl, ?_⟩
    simp only [checkDiskThresholds, hmc] at hv
    by_cases he : mc.enabled
    · simp only [he, Bool.not_true, Bool.false_eq_true, if_false] at hv
      obtain ⟨p, hp, hvp⟩ := List.mem_flatMap.mp hv
      exact ⟨p, hp, checkDiskPartition_mem hvp⟩
    · simp [he] at hv

/-! ## Claim C7: a zero or absent threshold disables its severity -/

/-- Condition that the given severity is disabled for the metric in the
configuration: the metric, when configured, has threshold 0 for that
severity (a missing thresholds entry reads as the Go zero value 0, and a
metric absent from the configuration contributes no violations at
all). -/
def severityDisabled (cfg : Config) (metricName sev : String) : Prop :=
  match getMetricConfig cfg metricName with
  | some mc => thresholdOf mc.thresholds sev = 0
  | none => True

/-- C7: for each of the disk, cpu and memory evaluators and each of the
two severities, a configured threshold of 0 (or an absent entry, which
reads as 0) means that severity never fires, regardless of the metric
value and independently of the other severity. -/
theorem c7_zero_threshold_disables :
    ∀ cfg : Config,
      (∀ parts, severityDisabled cfg "disk" "warning" →
        ∀ v ∈ checkDiskThresholds cfg parts, v.level ≠ "warning") ∧
      (∀ parts, severityDisabled cfg "disk" "critical" →
        ∀ v ∈ checkDiskThresholds cfg parts, v.level ≠ "critical") ∧
      (∀ u, severityDisabled cfg "cpu" "warning" →
        ∀ v ∈ checkCPUThresholds cfg u, v.level ≠ "warning") ∧
      (∀ u, severityDisabled cfg "cpu" "critical" →
        ∀ v ∈ checkCPUThresholds cfg u, v.level ≠ "critical") ∧
      (∀ used free, severityDisabled cfg "memory" "warning" →
        ∀ v ∈ checkMemoryThresholds cfg used free, v.level ≠ "warning") ∧
      (∀ used free, severityDisabled cfg "memory" "critical" →
        ∀ v ∈ checkMemoryThresholds cfg used free,
          v.level ≠ "critical") := by
  intro cfg
  refine ⟨?_, ?_, ?_, ?_, ?_, ?_⟩
  · intro parts hdis v hv hlev
    obtain ⟨mc, hmc, p, -, -, hcase⟩ := checkDisk_mem hv
    rw [severityDisabled, hmc] at hdis
    rcases hcase with ⟨hl, -, -⟩ | ⟨-, hpos, -⟩
    · rw [hlev] at hl
      simp at hl
    · rw [hdis] at hpos
      exact lt_irrefl _ hpos
  · intro parts hdis v hv hlev
    obtain ⟨mc, hmc, p, -, -, hcase⟩ := checkDisk_mem hv
    rw [severityDisabled, hmc] at hdis
    rcases hcase with ⟨-, hpos, -⟩ | ⟨hl, -, -⟩
    · rw [hdis] at hpos
      exact lt_irrefl _ hpos
    · rw [hlev] at hl
      simp at hl
  · intro u hdis v hv hlev
    obtain ⟨mc, hmc, hcase⟩ := checkCPU_mem hv
    rw [severityDisabled, hmc] at hdis
    rcases hcase with ⟨hl, -, -⟩ | ⟨-, hpos, -⟩
    · rw [hlev] at hl
      simp at hl
    · rw [hdis] at hpos
      exact lt_irrefl _ hpos
  · intro u hdis v hv hlev
    obtain ⟨mc, hmc, hcase⟩ := checkCPU_mem hv
    rw [severityDisabled, hmc] at hdis
    rcases hcase with ⟨-, hpos, -⟩ | ⟨hl, -, -⟩
    · rw [hdis] at hpos
      exact lt_irrefl _ hpos
    · rw [hlev] at hl
      simp at hl
  · intro used free hdis v hv hlev
    obtain ⟨mc, hmc, hcase⟩ := checkMemory_mem hv
    rw [severityDisabled, hmc] at hdis
    rcases hcase with ⟨hl, -⟩ | ⟨-, hpos⟩
    · rw [hlev] at hl
      simp at hl
    · rw [hdis] at hpos
      exact lt_irrefl _ hpos
  · intro used free hdis v hv hlev
    obtain ⟨mc, hmc, hcase⟩ := checkMemory_mem hv
    rw [severityDisabled, hmc] at hdis
    rcases hcase with ⟨-, hpos⟩ | ⟨hl, -⟩
    · rw [hdis] at hpos
      exact lt_irrefl _ hpos
    · rw [hlev] at hl
      simp at hl

/-- Configuration for the C7 witness: cpu enabled with only a warning
threshold, so the critical severity reads as 0 and is disabled. -/
def c7Config : Config :=
  { metrics :=
      [ ("cpu",
         { enabled := true, thresholds := [("warning", 70)]
           throttle :=
             { minDurationMinutes := 0, rep := false
               repeatInterval := .empty }
           mode := "", exclude := { devices := [], filesystems := []
                                    mountpoints := [] } }) ] }

/-- Violation emitted for the C7 witness at a usage of 999. -/
def c7Violation : ThresholdViolation :=
  { metric := "cpu", level := "warning"
    message := "cpu usage: " ++ fmtQ 999 ++ "% (warning threshold: " ++
      fmtQ 70 ++ "%)"
    value := 999 }

/-- C7 witness: the cpu conjunct applied at usage 999 under a
configuration whose critical threshold is absent: even at 999 percent
the emitted violation is not critical. -/
theorem c7_witness :
    severityDisabled c7Config "cpu" "critical" ∧
    c7Violation ∈ checkCPUThresholds c7Config 999 ∧
    c7Violation.level ≠ "critical" :=
  ⟨by simp [severityDisabled, c7Config, getMetricConfig, List.lookup,
      thresholdOf],
   by
     simp [checkCPUThresholds, c7Config, c7Violation, getMetricConfig,
       List.lookup, thresholdOf]
     norm_num,
   (c7_zero_threshold_disables c7Config).2.2.2.1 999
     (by simp [severityDisabled, c7Config, getMetricConfig, List.lookup,
        thresholdOf])
     c7Violation
     (by
       simp [checkCPUThresholds, c7Config, c7Violation, getMetricConfig,
         List.lookup, thresholdOf]
       norm_num)⟩

/-! ## Claim C3: excluded partitions produce no violations -/

/-- Exclusion configuration the disk evaluator consults: the exclude
section of the disk metric, or the empty exclusion when the metric is
absent (in which case the evaluator produces nothing anyway). -/
def diskExcludeOf (cfg : Config) : ExcludeConfig :=
  match getMetricConfig cfg "disk" with
  | some mc => mc.exclude
  | none => { devices := [], filesystems := [], mountpoints := [] }

/-- Sanity check against TestMatchesPattern: the five source test
vectors of the glob matcher. -/
theorem matchesPattern_test_vectors :
    matchesPattern "/dev/sda1" "/dev/sda1" = true ∧
    matchesPattern "/dev/loop*" "/dev/loop0" = true ∧
    matchesPattern "/dev/sda?" "/dev/sda1" = true ∧
    matchesPattern "/dev/sda1" "/dev/sda2" = false ∧
    matchesPattern "/dev/[sl]*" "/dev/sda1" = true := by
  decide

/-- C3: a partition matching any configured exclusion glob on its device
path, filesystem type or mountpoint yields no violation, regardless of
its usage percentage: its per-partition evaluation is empty and the disk
evaluator output does not change when the partition is removed from the
snapshot. -/
theorem c3_excluded_partition (cfg : Config) (p : PartitionInfo)
    (hex : isPartitionExcludedByConfig p (diskExcludeOf cfg) = true) :
    (∀ wt ct, checkDiskPartition wt ct (diskExcludeOf cfg) p = []) ∧
    (∀ parts, checkDiskThresholds cfg parts =
      checkDiskThresholds cfg
        (List.filter (fun q => decide (q ≠ p)) parts)) := by
  constructor
  · intro wt ct
    simp [checkDiskPartition, hex]
  · intro parts
    cases hmc : getMetricConfig cfg "disk" with
    | none => simp [checkDiskThresholds, hmc]
    | some mc =>
      have hexmc : isPartitionExcludedByConfig p mc.exclude = true := by
        rw [show mc.exclude = diskExcludeOf cfg from by
          simp [diskExcludeOf, hmc]]
        exact hex
      simp only [checkDiskThresholds, hmc]
      by_cases he : mc.enabled
      · simp only [he, Bool.not_true, Bool.false_eq_true, if_false]
        induction parts with
        | nil => simp
        | cons q rest ih =>
          by_cases hq : q = p
          · subst hq
            simp [checkDiskPartition, hexmc, ih]
          · simp [hq, ih]
      · simp [he]

/-- Configuration for the C3 witness: disk thresholds 80 and 90 with
loop devices excluded by the glob pattern. -/
def c3Config : Config :=
  { metrics :=
      [ ("disk",
         { enabled := true
           thresholds := [("warning", 80), ("critical", 90)]
           throttle :=
             { minDurationMinutes := 0, rep := false
               repeatInterval := .empty }
           mode := ""
           exclude := { devices := ["/dev/loop*"], filesystems := []
                        mountpoints := [] } }) ] }

/-- Excluded partition for the C3 witness: a loop device at 99 percent
usage. -/
def c3Partition : PartitionInfo :=
  { device := "/dev/loop0", mountpoint := "/mnt/iso", fstype := "iso9660"
    percentage := 99 }

/-- C3 witness: the theorem applied to a 99-percent-full loop device
matching the configured device glob; it contributes no violation and
removing it from the snapshot does not change the evaluator output. -/
theorem c3_witness :
    isPartitionExcludedByConfig c3Partition (diskExcludeOf c3Config) =
      true ∧
    checkDiskPartition 80 90 (diskExcludeOf c3Config) c3Partition = [] ∧
    checkDiskThresholds c3Config [c3Partition] =
      checkDiskThresholds c3Config
        (List.filter (fun q => decide (q ≠ c3Partition)) [c3Partition]) :=
  ⟨by decide,
   (c3_excluded_partition c3Config c3Partition (by decide)).1 80 90,
   (c3_excluded_partition c3Config c3Partition (by decide)).2
     [c3Partition]⟩

/-! ## Serialization round-trip helpers (shared) -/

theorem decodeState_encodeState (vs : ViolationState) :
    decodeState (encodeState vs) = some vs := by
  obtain ⟨met, lev, fdt, la, ha⟩ := vs
  cases la with
  | none => simp [encodeState, decodeState, getField]
  | some t => simp [encodeState, decodeState, getField]

theorem decodeStates_encodeStates (m : StateMap) :
    decodeStates (encodeStates m) = some m := by
  induction m with
  | nil => simp [encodeStates, decodeStates, decodeStatesList]
  | cons p rest ih =>
    obtain ⟨k, vs⟩ := p
    have ihm : decodeStatesList
        (List.map (fun p => (p.1, encodeState p.2)) rest) = some rest := by
      simpa [encodeStates, decodeStates] using ih
    simp [encodeStates, decodeStates, decodeStatesList,
      decodeState_encodeState, ihm]

/-! ## Claim C5: persisting and reloading the state map is the identity -/

/-- C5: saving any state map to the state file (an uninterrupted save)
and loading the resulting file yields exactly the same map: the same
keys and, for each key, the same metric, level, first_detected_time,
last_alert_time (including the null case) and has_alerted values. -/
theorem c5_save_load_roundtrip :
    ∀ (m : StateMap) (fs : FileState),
      loadRun (saveRun none m fs) = .ok m := by
  intro m fs
  simp [saveRun, writeFileRun, loadRun, decodeStates_encodeStates]

/-! ## Claim C4: the save path is not atomic -/

/-- C4 counterexample: save performs no write-to-temp-and-rename (its
operation list holds no rename at all and a single direct write to the
state-file path), and a write interrupted after 3 bytes replaces the
previously durable file content with a torn prefix: the old content is
gone and the load of the torn file fails, so a partial write does
corrupt the previously durable state. -/
theorem c4_counterexample :
    List.all
      (saveOps "/tmp/tfc-monitor-state.json"
        [("cpu_warning",
          { metric := "cpu", level := "warning", firstDetectedTime := 1000
            lastAlertTime := none, hasAlerted := false })])
      (fun op => !op.isRename) = true ∧
    saveRun (some 3)
      [("cpu_warning",
        { metric := "cpu", level := "warning", firstDetectedTime := 1000
          lastAlertTime := none, hasAlerted := false })]
      (.whole (encodeStates [])) ≠ .whole (encodeStates []) ∧
    loadRun (saveRun (some 3)
      [("cpu_warning",
        { metric := "cpu", level := "warning", firstDetectedTime := 1000
          lastAlertTime := none, hasAlerted := false })]
      (.whole (encodeStates []))) = .error "failed to unmarshal state" := by
  refine ⟨rfl, ?_, rfl⟩
  intro h
  simp [saveRun, writeFileRun] at h

/-- C4 (amended): save marshals the map and writes it directly to the
state-file path in a single os.WriteFile call after MkdirAll, with no
temporary file and no rename; an uninterrupted save round-trips, but an
interrupted write leaves torn content that is neither the old nor any
complete file and fails to load, so the save path is not atomic with
respect to partial writes. -/
theorem c4_save_not_atomic_amended :
    ∀ (sf : String) (m : StateMap) (fs : FileState),
      saveOps sf m =
        [FsOp.mkdirAll "/tmp", FsOp.writeFile sf (encodeStates m)] ∧
      List.all (saveOps sf m) (fun op => !op.isRename) = true ∧
      loadRun (saveRun none m fs) = .ok m ∧
      (∀ k, loadRun (saveRun (some k) m fs) =
        .error "failed to unmarshal state") ∧
      (∀ k j, saveRun (some k) m fs ≠ .whole j) := by
  intro sf m fs
  refine ⟨rfl, rfl, ?_, fun k => rfl, fun k j h => ?_⟩
  · simp [saveRun, writeFileRun, loadRun, decodeStates_encodeStates]
  · simp [saveRun, writeFileRun] at h

/-- C4 witness: the amended theorem applied at the default state-file
path with a singleton map over an absent file, including the no-whole
conclusion at the concrete interruption point 0. -/
theorem c4_witness :
    saveOps "/tmp/tfc-monitor-state.json"
        [("cpu_warning",
          { metric := "cpu", level := "warning", firstDetectedTime := 1000
            lastAlertTime := none, hasAlerted := false })] =
      [FsOp.mkdirAll "/tmp",
       FsOp.writeFile "/tmp/tfc-monitor-state.json"
         (encodeStates
           [("cpu_warning",
             { metric := "cpu", level := "warning"
               firstDetectedTime := 1000
               lastAlertTime := none, hasAlerted := false })])] ∧
    loadRun (saveRun none
        [("cpu_warning",
          { metric := "cpu", level := "warning", firstDetectedTime := 1000
            lastAlertTime := none, hasAlerted := false })] .absent) =
      .ok [("cpu_warning",
        { metric := "cpu", level := "warning", firstDetectedTime := 1000
          lastAlertTime := none, hasAlerted := false })] ∧
    loadRun (saveRun (some 0)
        [("cpu_warning",
          { metric := "cpu", level := "warning", firstDetectedTime := 1000
            lastAlertTime := none, hasAlerted := false })] .absent) =
      .error "failed to unmarshal state" ∧
    saveRun (some 0)
        [("cpu_warning",
          { metric := "cpu", level := "warning", firstDetectedTime := 1000
            lastAlertTime := none, hasAlerted := false })] .absent ≠
      .whole (encodeStates []) :=
  ⟨(c4_save_not_atomic_amended "/tmp/tfc-monitor-state.json"
      [("cpu_warning",
        { metric := "cpu", level := "warning", firstDetectedTime := 1000
          lastAlertTime := none, hasAlerted := false })] .absent).1,
   (c4_save_not_atomic_amended "/tmp/tfc-monitor-state.json"
      [("cpu_warning",
        { metric := "cpu", level := "warning", firstDetectedTime := 1000
          lastAlertTime := none, hasAlerted := false })] .absent).2.2.1,
   (c4_save_not_atomic_amended "/tmp/tfc-monitor-state.json"
      [("cpu_warning",
        { metric := "cpu", level := "warning", firstDetectedTime := 1000
          lastAlertTime := none, hasAlerted := false })]
      .absent).2.2.2.1 0,
   (c4_save_not_atomic_amended "/tmp/tfc-monitor-state.json"
      [("cpu_warning",
        { metric := "cpu", level := "warning", firstDetectedTime := 1000
          lastAlertTime := none, hasAlerted := false })]
      .absent).2.2.2.2 0 (encodeStates [])⟩

/-! ## Claim C2: per-cycle persistence and error reporting
(spec-modelled composition) -/

/-- C2: in the modelled cycle, a failing persistence write makes
CheckAllThresholds return an error to its caller (never a success), and
on a successful cycle the durable file content returned with the result
is exactly the serialization of the post-mutation state map, so every
state mutation of the cycle is persisted before the result is returned
(reloading the file yields the final map). -/
theorem c2_cycle_persistence :
    ∀ (now : ℤ) (cfg : Config) (stats : SystemStats) (m : StateMap),
      (∀ r, checkAllThresholds now false cfg stats m ≠ .ok r) ∧
      (∀ w c m2 j, checkAllThresholds now true cfg stats m =
          .ok (w, c, m2, j) →
        j = encodeStates m2 ∧ loadRun (.whole j) = .ok m2) := by
  intro now cfg stats m
  constructor
  · intro r
    simp only [checkAllThresholds]
    split
    · simp
    · simp
  · intro w c m2 j h
    simp only [checkAllThresholds] at h
    split at h
    · exact Except.noConfusion h
    · simp only [if_true] at h
      have hinj := Except.ok.inj h
      simp only [Prod.mk.injEq] at hinj
      obtain ⟨-, -, rfl, rfl⟩ := hinj
      exact ⟨rfl, by simp [loadRun, decodeStates_encodeStates]⟩

/-- C2 witness: the theorem applied to a cycle with an empty snapshot
and empty state: the failing-write cycle returns no success, and the
successful cycle persists the (empty) post-mutation map, whose reload
yields it back. -/
theorem c2_witness :
    checkAllThresholds 1000 true { metrics := [] }
        { partitions := [], cpuUsage := none, memUsedPercentage := none }
        [] = .ok ([], [], [], encodeStates []) ∧
    (encodeStates [] = encodeStates ([] : StateMap) ∧
      loadRun (.whole (encodeStates [])) = .ok ([] : StateMap)) ∧
    checkAllThresholds 1000 false { metrics := [] }
        { partitions := [], cpuUsage := none, memUsedPercentage := none }
        [] ≠ .ok ([], [], [], encodeStates []) :=
  ⟨rfl,
   (c2_cycle_persistence 1000 { metrics := [] }
     { partitions := [], cpuUsage := none, memUsedPercentage := none }
     []).2 [] [] [] (encodeStates []) rfl,
   (c2_cycle_persistence 1000 { metrics := [] }
     { partitions := [], cpuUsage := none, memUsedPercentage := none }
     []).1 ([], [], [], encodeStates [])⟩

/-! ## Claim C6: dispatch failures do not abort the chain and the first
error is returned -/

/-- First-error accumulator semantics: an already-recorded error wins,
otherwise the first of the newly collected errors. -/
def firstErrOf (fe : Option String) (errs : List String) : Option String :=
  match fe with
  | some e => some e
  | none => errs.head?

theorem firstErrOf_append (fe : Option String) (l1 l2 : List String) :
    firstErrOf (firstErrOf fe l1) l2 = firstErrOf fe (l1 ++ l2) := by
  cases fe with
  | some e => rfl
  | none =>
    cases l1 with
    | nil => rfl
    | cons e rest => rfl

theorem execLoop_eq (i : ℕ) (exec : ThresholdViolation → Option String) :
    ∀ (vs : List ThresholdViolation) (fe : Option String)
      (acc : List (ℕ × ThresholdViolation)),
      execLoop i exec vs fe acc =
        (firstErrOf fe (List.filterMap exec vs),
         acc ++ List.map (fun v => (i, v)) vs) := by
  intro vs
  induction vs with
  | nil =>
    intro fe acc
    cases fe <;> simp [execLoop, firstErrOf]
  | cons v rest ih =>
    intro fe acc
    simp only [execLoop]
    rw [ih]
    cases fe with
    | some e => simp [firstErrOf, List.filterMap_cons]
    | none =>
      cases hx : exec v with
      | none => simp [firstErrOf, List.filterMap_cons, hx]
      | some er => simp [firstErrOf, List.filterMap_cons, hx]

theorem dispatchChain_eq :
    ∀ (acts : List ActionSpec) (vs : List ThresholdViolation) (i : ℕ)
      (fe : Option String) (acc : List (ℕ × ThresholdViolation)),
      dispatchChain acts vs i fe acc =
        (firstErrOf fe (chainErrors acts vs),
         acc ++ chainAttempts acts vs i) := by
  intro acts
  induction acts with
  | nil =>
    intro vs i fe acc
    cases fe <;> simp [dispatchChain, chainErrors, chainAttempts, firstErrOf]
  | cons a rest ih =>
    intro vs i fe acc
    cases a with
    | invalid e =>
      simp only [dispatchChain]
      rw [ih]
      cases fe with
      | some e0 => simp [firstErrOf, chainErrors, chainAttempts]
      | none => simp [firstErrOf, chainErrors, chainAttempts]
    | valid exec =>
      simp only [dispatchChain]
      rw [execLoop_eq]
      rw [ih]
      simp only [chainErrors, chainAttempts, firstErrOf_append,
        List.append_assoc]

/-- C6: in the modelled dispatcher every successfully constructed action
of a processed severity is executed once per violation of that severity
regardless of earlier construction or execution failures (the attempt
trace is exactly the full chain trace, which by definition of
chainAttempts is independent of any execution outcome), and the error
returned to the caller is the first error encountered across the whole
dispatch, criticals first. -/
theorem c6_dispatch_first_error :
    ∀ (warningActions criticalActions : List ActionSpec)
      (warningViolations criticalViolations : List ThresholdViolation),
      processViolations warningActions criticalActions warningViolations
          criticalViolations =
        (((if criticalViolations.isEmpty then []
           else chainErrors criticalActions criticalViolations) ++
          (if warningViolations.isEmpty then []
           else chainErrors warningActions warningViolations)).head?,
         (if criticalViolations.isEmpty then []
          else chainAttempts criticalActions criticalViolations 0) ++
         (if warningViolations.isEmpty then []
          else chainAttempts warningActions warningViolations 0)) := by
  intro wa ca wv cv
  simp only [processViolations]
  by_cases hcv : cv.isEmpty
  · by_cases hwv : wv.isEmpty
    · simp [hcv, hwv]
    · simp only [hcv, hwv, if_true, if_false, Bool.false_eq_true]
      rw [dispatchChain_eq]
      simp [firstErrOf]
  · by_cases hwv : wv.isEmpty
    · simp only [hcv, hwv, Bool.false_eq_true, if_false, if_true]
      rw [dispatchChain_eq]
      simp [firstErrOf]
  -- fall through handled below
    · simp only [hcv, hwv, Bool.false_eq_true, if_false]
      rw [dispatchChain_eq, dispatchChain_eq]
      simp only [firstErrOf_append, List.nil_append, firstErrOf]
      rw [List.head?_append]
      cases (chainErrors ca cv).head? <;> simp [Option.or]

/-! ## Claim C9: reconciliation is idempotent -/

theorem clearSM_sublist (metric level : String) (m : StateMap) :
    (clearSM metric level m).Sublist m := by
  unfold clearSM
  split
  · exact List.filter_sublist m
  · exact List.Sublist.refl m

theorem clearLoop_sublist :
    ∀ (l : List String) (m : StateMap), (clearLoop m l).Sublist m := by
  intro l
  induction l with
  | nil => intro m; exact List.Sublist.refl m
  | cons key rest ih =>
    intro m
    cases hl : lookupSM m key with
    | some st =>
      simp only [clearLoop, hl]
      exact (ih (clearSM st.metric st.level m)).trans
        (clearSM_sublist st.metric st.level m)
    | none =>
      simp only [clearLoop, hl]
      exact ih m

theorem not_mem_keys_eraseSM (key : String) (m : StateMap) :
    key ∉ keysSM (eraseSM key m) := by
  intro h
  obtain ⟨p, hp, hpk⟩ := List.mem_map.mp h
  have := List.of_mem_filter hp
  simp [hpk] at this

theorem stateKey_not_in_clearSM (st : ViolationState) (m : StateMap) :
    stateKey st.metric st.level ∉
      keysSM (clearSM st.metric st.level m) := by
  unfold clearSM
  by_cases h : (lookupSM m (stateKey st.metric st.level)).isSome
  · rw [if_pos h]
    exact not_mem_keys_eraseSM _ m
  · rw [if_neg h]
    have hnone : lookupSM m (stateKey st.metric st.level) = none := by
      cases hcase : lookupSM m (stateKey st.metric st.level) with
      | none => rfl
      | some s => rw [hcase] at h; simp at h
    exact lookupSM_eq_none_iff.mp hnone

theorem clearLoop_derived_absent :
    ∀ (l : List String) (m : StateMap), (keysSM m).Nodup →
      ∀ (k : String) (st : ViolationState),
        (k, st) ∈ clearLoop m l → k ∈ l →
        stateKey st.metric st.level ∉ keysSM (clearLoop m l) := by
  intro l
  induction l with
  | nil =>
    intro m hnd k st hmem hk
    simp at hk
  | cons key rest ih =>
    intro m hnd k st hmem hkl
    by_cases hkrest : k ∈ rest
    · cases hl : lookupSM m key with
      | some st0 =>
        simp only [clearLoop, hl] at hmem ⊢
        have hnd2 : (keysSM (clearSM st0.metric st0.level m)).Nodup :=
          hnd.sublist (List.Sublist.map Prod.fst
            (clearSM_sublist st0.metric st0.level m))
        exact ih (clearSM st0.metric st0.level m) hnd2 k st hmem hkrest
      | none =>
        simp only [clearLoop, hl] at hmem ⊢
        exact ih m hnd k st hmem hkrest
    · have hkey : k = key := by
        rcases List.mem_cons.mp hkl with h | h
        · exact h
        · exact absurd h hkrest
      subst hkey
      cases hl : lookupSM m k with
      | some st0 =>
        simp only [clearLoop, hl] at hmem ⊢
        have hmem2 : (k, st) ∈ clearSM st0.metric st0.level m :=
          (clearLoop_sublist rest (clearSM st0.metric st0.level m)).subset
            hmem
        have hmemm : (k, st) ∈ m :=
          (clearSM_sublist st0.metric st0.level m).subset hmem2
        have hlk := lookupSM_of_mem_nodup hmemm hnd
        rw [hl] at hlk
        obtain rfl := Option.some.inj hlk
        intro hcon
        exact stateKey_not_in_clearSM st0 m
          ((List.Sublist.map Prod.fst
            (clearLoop_sublist rest
              (clearSM st0.metric st0.level m))).subset hcon)
      | none =>
        simp only [clearLoop, hl] at hmem
        have hmemm : (k, st) ∈ m := (clearLoop_sublist rest m).subset hmem
        have hlk := lookupSM_of_mem_nodup hmemm hnd
        rw [hl] at hlk
        exact Option.noConfusion hlk

theorem clearLoop_id_of_dead :
    ∀ (l : List String) (m : StateMap),
      (∀ k ∈ l, ∀ st, lookupSM m k = some st →
        stateKey st.metric st.level ∉ keysSM m) →
      clearLoop m l = m := by
  intro l
  induction l with
  | nil => intro m _; rfl
  | cons key rest ih =>
    intro m h
    cases hl : lookupSM m key with
    | none =>
      simp only [clearLoop, hl]
      exact ih m (fun k hk => h k (List.mem_cons_of_mem _ hk))
    | some st =>
      have hdead := h key (List.mem_cons_self _ _) st hl
      have hstep : clearSM st.metric st.level m = m := by
        unfold clearSM
        rw [if_neg]
        rw [lookupSM_eq_none_iff.mpr hdead]
        simp
      simp only [clearLoop, hl, hstep]
      exact ih m (fun k hk => h k (List.mem_cons_of_mem _ hk))

/-- C9: running clearResolvedViolations a second time with the same
candidate list immediately after a first run deletes no further entries
and leaves the state map unchanged (under the Go map invariant that the
stored keys are distinct). -/
theorem c9_reconcile_idempotent :
    ∀ (current : List ThresholdViolation) (m : StateMap),
      (keysSM m).Nodup →
      clearResolvedViolations current (clearResolvedViolations current m) =
        clearResolvedViolations current m := by
  intro c m hnd
  have hmain :
      ∀ k ∈ List.filter
          (fun k => !(List.contains (candidateKeys c) k))
          (keysSM (clearResolvedViolations c m)),
        ∀ st, lookupSM (clearResolvedViolations c m) k = some st →
          stateKey st.metric st.level ∉
            keysSM (clearResolvedViolations c m) := by
    intro k hk st hlk
    obtain ⟨hkmem, hpred⟩ := List.mem_filter.mp hk
    have hmem1 : (k, st) ∈ clearResolvedViolations c m :=
      mem_of_lookupSM hlk
    have hkm : k ∈ keysSM m := by
      have hsub : (keysSM (clearResolvedViolations c m)).Sublist
          (keysSM m) := by
        unfold clearResolvedViolations
        exact List.Sublist.map Prod.fst (clearLoop_sublist _ m)
      exact hsub.subset hkmem
    have hkl1 : k ∈ List.filter
        (fun k => !(List.contains (candidateKeys c) k)) (keysSM m) :=
      List.mem_filter.mpr ⟨hkm, hpred⟩
    have := clearLoop_derived_absent
      (List.filter (fun k => !(List.contains (candidateKeys c) k))
        (keysSM m)) m hnd k st (by simpa [clearResolvedViolations]
          using hmem1) hkl1
    simpa [clearResolvedViolations] using this
  conv_lhs => rw [clearResolvedViolations]
  exact clearLoop_id_of_dead _ _ hmain

/-- C9 witness: the idempotence theorem applied to a two-entry state map
with a single surviving cpu candidate. -/
theorem c9_witness :
    (keysSM
      [("cpu_warning",
        { metric := "cpu", level := "warning", firstDetectedTime := 1000
          lastAlertTime := none, hasAlerted := true }),
       ("disk_warning",
        { metric := "disk", level := "warning", firstDetectedTime := 900
          lastAlertTime := none, hasAlerted := true })]).Nodup ∧
    clearResolvedViolations
      [{ metric := "cpu", level := "warning", message := "m", value := 95 }]
      (clearResolvedViolations
        [{ metric := "cpu", level := "warning", message := "m"
           value := 95 }]
        [("cpu_warning",
          { metric := "cpu", level := "warning", firstDetectedTime := 1000
            lastAlertTime := none, hasAlerted := true }),
         ("disk_warning",
          { metric := "disk", level := "warning", firstDetectedTime := 900
            lastAlertTime := none, hasAlerted := true })]) =
      clearResolvedViolations
        [{ metric := "cpu", level := "warning", message := "m"
           value := 95 }]
        [("cpu_warning",
          { metric := "cpu", level := "warning", firstDetectedTime := 1000
            lastAlertTime := none, hasAlerted := true }),
         ("disk_warning",
          { metric := "disk", level := "warning", firstDetectedTime := 900
            lastAlertTime := none, hasAlerted := true })] :=
  ⟨by decide,
   c9_reconcile_idempotent
     [{ metric := "cpu", level := "warning", message := "m", value := 95 }]
     [("cpu_warning",
       { metric := "cpu", level := "warning", firstDetectedTime := 1000
         lastAlertTime := none, hasAlerted := true }),
      ("disk_warning",
       { metric := "disk", level := "warning", firstDetectedTime := 900
         lastAlertTime := none, hasAlerted := true })]
     (by decide)⟩

end TfcMonitor
